import Mathlib

/-!
Verification of the analysis-orchestration core of the ai-chart-analyzer
repository (src/geminiService.ts), a shallow embedding in Lean 4.

Strings are modelled as `List Char` (one entry per UTF-16-ish code point).
The browser environment is modelled explicitly:
  - local storage holds at most the one value under the app's key, so the
    store is an `Option (List Char)` field of the service state;
  - the `GoogleGenAI` constructor is an external collaborator, so whether it
    succeeds on a given key is an environment parameter (`GenAIEnv`);
  - the single `generateContent` round trip is an external collaborator, so
    its outcome (a text body, possibly absent, or a thrown error whose
    `message` is possibly absent) is a parameter (`RemoteOutcome`);
  - `JSON.parse` and the fenced-code-block regex are host built-ins and are
    given executable definitions below, faithful to ECMA-404 JSON.parse and
    to the regex literal in the source.
-/

/-- Convert a Lean string literal to the `List Char` representation used
throughout the development. -/
def strL (s : String) : List Char := s.data

/-- Left brace character, U+007B. -/
def lbrace : Char := Char.ofNat 123

/-- Right brace character, U+007D. -/
def rbrace : Char := Char.ofNat 125

/-- Backtick character, U+0060. -/
def btick : Char := Char.ofNat 96

/-- The three-backtick fence delimiter of the regex in the source
(`src/geminiService.ts` line 125). -/
def bt3 : List Char := [btick, btick, btick]

/-- JavaScript whitespace, the set used by `String.prototype.trim` and by
the regex class `\s` (WhiteSpace plus LineTerminator, ECMA-262). -/
def jsWhitespace (c : Char) : Bool :=
  c = ' ' || c = '\t' || c = '\n' || c = '\r' || c = '\x0b' || c = '\x0c' ||
  c = Char.ofNat 0xa0 || c = Char.ofNat 0x1680 ||
  c = Char.ofNat 0x2000 || c = Char.ofNat 0x2001 || c = Char.ofNat 0x2002 ||
  c = Char.ofNat 0x2003 || c = Char.ofNat 0x2004 || c = Char.ofNat 0x2005 ||
  c = Char.ofNat 0x2006 || c = Char.ofNat 0x2007 || c = Char.ofNat 0x2008 ||
  c = Char.ofNat 0x2009 || c = Char.ofNat 0x200a ||
  c = Char.ofNat 0x2028 || c = Char.ofNat 0x2029 ||
  c = Char.ofNat 0x202f || c = Char.ofNat 0x205f ||
  c = Char.ofNat 0x3000 || c = Char.ofNat 0xfeff

/-- Model of JavaScript `String.prototype.trim`: strip `jsWhitespace`
from both ends. -/
def jsTrim (l : List Char) : List Char :=
  (l.dropWhile jsWhitespace).rdropWhile jsWhitespace

/-- Model of the regex class `\w`: ASCII letters, digits and underscore. -/
def isWordChar (c : Char) : Bool :=
  c.isAlpha || c.isDigit || c = '_'

/-- Per-character model of JavaScript `String.prototype.toLowerCase`
(adequate for the ASCII needles used by the error classifier). -/
def jsLowerChar (c : Char) : Char :=
  if 'A' ≤ c ∧ c ≤ 'Z' then Char.ofNat (c.toNat + 32) else c

/-- Model of `toLowerCase` on a whole string. -/
def lowerStr (l : List Char) : List Char := l.map jsLowerChar

/-- Model of JavaScript `hay.includes(needle)`: substring containment. -/
def hasSub (hay needle : List Char) : Bool :=
  match hay with
  | [] => needle.isEmpty
  | _ :: t => needle.isPrefixOf hay || hasSub t needle

/-! ### JSON values and a model of `JSON.parse`

Numbers keep their source literal (their numeric value is never inspected
by the program, which treats the parse result as an opaque record). -/

/-- A parsed JSON value, the program's `AnalysisData` shape (the source
casts the `JSON.parse` result with no schema validation). -/
inductive Json where
  | null
  | bool (b : Bool)
  | num (lit : List Char)
  | str (s : List Char)
  | arr (elems : List Json)
  | obj (mems : List (List Char × Json))

/-- JSON insignificant whitespace (ECMA-404): space, tab, LF, CR. -/
def jsonWsChar (c : Char) : Bool :=
  c = ' ' || c = '\t' || c = '\n' || c = '\r'

/-- ASCII decimal digit test used by the JSON number grammar. -/
def isDigitCh (c : Char) : Bool :=
  c = '0' || c = '1' || c = '2' || c = '3' || c = '4' ||
  c = '5' || c = '6' || c = '7' || c = '8' || c = '9'

/-- The characters on which a JSON value may begin. -/
def jsonStartChar (c : Char) : Bool :=
  c = '"' || c = lbrace || c = '[' || c = '-' || isDigitCh c ||
  c = 't' || c = 'f' || c = 'n'

/-- Value of a hexadecimal digit, used for `\u` escapes. -/
def hexDigitVal (c : Char) : Option Nat :=
  if isDigitCh c then some (c.toNat - 48)
  else if 'a' ≤ c ∧ c ≤ 'f' then some (c.toNat - 87)
  else if 'A' ≤ c ∧ c ≤ 'F' then some (c.toNat - 55)
  else none

/-- Parse the body of a JSON string after the opening quote; returns the
decoded characters and the input remaining after the closing quote.
Fuelled; one character is consumed per step, so fuel `length + 1` always
suffices. -/
def parseStringBody : Nat → List Char → Option (List Char × List Char)
  | 0, _ => none
  | _ + 1, [] => none
  | fuel + 1, c :: rest =>
    if c = '"' then some ([], rest)
    else if c = '\\' then
      match rest with
      | [] => none
      | e :: rest2 =>
        if e = '"' ∨ e = '\\' ∨ e = '/' then
          (parseStringBody fuel rest2).map fun pr => (e :: pr.1, pr.2)
        else if e = 'b' then
          (parseStringBody fuel rest2).map fun pr => (Char.ofNat 8 :: pr.1, pr.2)
        else if e = 'f' then
          (parseStringBody fuel rest2).map fun pr => (Char.ofNat 12 :: pr.1, pr.2)
        else if e = 'n' then
          (parseStringBody fuel rest2).map fun pr => ('\n' :: pr.1, pr.2)
        else if e = 'r' then
          (parseStringBody fuel rest2).map fun pr => ('\r' :: pr.1, pr.2)
        else if e = 't' then
          (parseStringBody fuel rest2).map fun pr => ('\t' :: pr.1, pr.2)
        else if e = 'u' then
          match rest2 with
          | h1 :: h2 :: h3 :: h4 :: rest3 =>
            match hexDigitVal h1, hexDigitVal h2, hexDigitVal h3, hexDigitVal h4 with
            | some v1, some v2, some v3, some v4 =>
              (parseStringBody fuel rest3).map fun pr =>
                (Char.ofNat (((v1 * 16 + v2) * 16 + v3) * 16 + v4) :: pr.1, pr.2)
            | _, _, _, _ => none
          | _ => none
        else none
    else if c.toNat < 32 then none
    else (parseStringBody fuel rest).map fun pr => (c :: pr.1, pr.2)

/-- Lex a JSON number literal (ECMA-404 grammar: optional minus, integer
part with no leading zero, optional fraction, optional exponent); returns
the literal characters and the rest of the input. -/
def lexNumber (s : List Char) : Option (List Char × List Char) :=
  let (neg, s1) :=
    match s with
    | c :: r => if c = '-' then ([c], r) else (([] : List Char), s)
    | [] => ([], s)
  match s1 with
  | [] => none
  | c :: r =>
    if isDigitCh c then
      let (intRest, s2) :=
        if c = '0' then (([] : List Char), r) else (r.takeWhile isDigitCh, r.dropWhile isDigitCh)
      let intPart := c :: intRest
      -- fraction may be absent; a dot with no digit is a syntax error
      match
        (match s2 with
         | d :: r2 =>
           if d = '.' then
             let ds := r2.takeWhile isDigitCh
             if ds.isEmpty then none else some (d :: ds, r2.dropWhile isDigitCh)
           else some (([] : List Char), s2)
         | [] => some ([], s2)) with
      | none => none
      | some (fp, s3') =>
        match
          (match s3' with
           | e :: r3 =>
             if e = 'e' ∨ e = 'E' then
               let (sgn, r4) :=
                 match r3 with
                 | g :: r5 => if g = '+' ∨ g = '-' then ([g], r5) else (([] : List Char), r3)
                 | [] => ([], r3)
               let ds := r4.takeWhile isDigitCh
               if ds.isEmpty then none else some (e :: (sgn ++ ds), r4.dropWhile isDigitCh)
             else some (([] : List Char), s3')
           | [] => some ([], s3')) with
        | none => none
        | some (ep, s4) => some (neg ++ intPart ++ fp ++ ep, s4)
    else none

/-- Task of the fuelled JSON parser: a value, the members of an object
after `\x7b` or a comma, or the elements of an array after `[` or a
comma. -/
inductive PTask where
  | val (s : List Char)
  | mem (s : List Char) (acc : List (List Char × Json))
  | elt (s : List Char) (acc : List Json)

/-- The recursive-descent JSON parser, structurally recursive on fuel so
that it evaluates by kernel reduction. -/
def parseF : Nat → PTask → Option (Json × List Char)
  | 0, _ => none
  | fuel + 1, PTask.val s =>
    match s.dropWhile jsonWsChar with
    | [] => none
    | c :: r =>
      if c = '"' then
        (parseStringBody (r.length + 1) r).map fun pr => (Json.str pr.1, pr.2)
      else if c = lbrace then
        match r.dropWhile jsonWsChar with
        | [] => none
        | d :: r2 =>
          if d = rbrace then some (Json.obj [], r2)
          else parseF fuel (PTask.mem (r.dropWhile jsonWsChar) [])
      else if c = '[' then
        match r.dropWhile jsonWsChar with
        | [] => none
        | d :: r2 =>
          if d = ']' then some (Json.arr [], r2)
          else parseF fuel (PTask.elt (r.dropWhile jsonWsChar) [])
      else if c = 't' then
        if (strL "rue").isPrefixOf r then some (Json.bool true, r.drop 3) else none
      else if c = 'f' then
        if (strL "alse").isPrefixOf r then some (Json.bool false, r.drop 4) else none
      else if c = 'n' then
        if (strL "ull").isPrefixOf r then some (Json.null, r.drop 3) else none
      else if c = '-' ∨ isDigitCh c then
        (lexNumber (c :: r)).map fun pr => (Json.num pr.1, pr.2)
      else none
  | fuel + 1, PTask.mem s acc =>
    match s.dropWhile jsonWsChar with
    | [] => none
    | c :: r =>
      if c = '"' then
        match parseStringBody (r.length + 1) r with
        | none => none
        | some (key, r2) =>
          match r2.dropWhile jsonWsChar with
          | [] => none
          | d :: r3 =>
            if d = ':' then
              match parseF fuel (PTask.val r3) with
              | none => none
              | some (v, r4) =>
                match r4.dropWhile jsonWsChar with
                | [] => none
                | e :: r5 =>
                  if e = ',' then parseF fuel (PTask.mem r5 (acc ++ [(key, v)]))
                  else if e = rbrace then some (Json.obj (acc ++ [(key, v)]), r5)
                  else none
            else none
      else none
  | fuel + 1, PTask.elt s acc =>
    match parseF fuel (PTask.val s) with
    | none => none
    | some (v, r) =>
      match r.dropWhile jsonWsChar with
      | [] => none
      | e :: r2 =>
        if e = ',' then parseF fuel (PTask.elt r2 (acc ++ [v]))
        else if e = ']' then some (Json.arr (acc ++ [v]), r2)
        else none

/-- Model of `JSON.parse`: parse one value, then require only whitespace
to remain. Fuel `length + 1` suffices because every recursive step of
`parseF` consumes at least one character. -/
def jsonParse (t : List Char) : Option Json :=
  match parseF (t.length + 1) (PTask.val t) with
  | some (v, rest) => if (rest.dropWhile jsonWsChar).isEmpty then some v else none
  | none => none

/-! ### The fence-stripping step

`src/geminiService.ts` lines 124-129:
the trimmed response is matched against the regex
`^BTBTBT(\w*)?\s*\n?(.*?)\n?\s*BTBTBT$` with the dot-all flag (writing BT for a
backtick), and when the match exists and capture group 2 is non-empty the
group replaces the text.  For this fixed pattern the JS backtracking
semantics admit a closed form, implemented here: a match exists iff the
string starts with a fence, ends with a fence, and has length at least 6
(the anchors pin both fences, and the first backtracking attempt always
succeeds because neither `\w` nor `\s` matches a backtick); group 2 then
extends from the end of the maximal `\w*`-then-`\s*` run after the opening
fence up to the last non-`\s` character before the closing fence. -/

/-- Capture group 2 of the fence regex, or `none` when the regex does not
match. -/
def fenceGroup2 (s : List Char) : Option (List Char) :=
  if bt3.isPrefixOf s && bt3.isSuffixOf s && decide (6 ≤ s.length) then
    let a1 := (s.drop 3).dropWhile isWordChar
    let a2 := a1.dropWhile jsWhitespace
    some ((a2.take (a2.length - 3)).rdropWhile jsWhitespace)
  else none

/-- Lines 124-129 of the source: trim the response text, and if the fence
regex matches with a non-empty group 2, use the trimmed group instead. -/
def decodeJsonStr (responseText : List Char) : List Char :=
  let jsonStr := jsTrim responseText
  match fenceGroup2 jsonStr with
  | some g => if g.isEmpty then jsonStr else jsTrim g
  | none => jsonStr

/-- The full response-decoding step of `analyze`: fence-strip then
`JSON.parse`. -/
def decodeResponse (responseText : List Char) : Option Json :=
  jsonParse (decodeJsonStr responseText)

/-! ### The credential manager and orchestrator -/

/-- Process-wide mutable state of `src/geminiService.ts`: the module-level
`ai` client handle (carrying the key it was constructed from) and the
single local-storage slot under `geminiApiKey_aiChartAnalyzer`. -/
structure SvcState where
  ai : Option (List Char)
  storage : Option (List Char)
deriving Repr, DecidableEq

/-- External-collaborator behaviour of the `GoogleGenAI` constructor:
whether construction succeeds on a given key, and the error message it
throws when it fails. -/
structure GenAIEnv where
  cok : List Char → Bool
  cmsg : List Char → List Char

/-- A JavaScript exception as observed by the caller: an `Error` with a
message, or the `TypeError` raised by a property access on `undefined`. -/
inductive JsErr where
  | thrown (msg : List Char)
  | typeError
deriving Repr, DecidableEq

/-- Outcome of the single `generateContent` round trip: a response whose
`text` field may be absent, or a thrown error whose `message` may be
absent. -/
inductive RemoteOutcome where
  | ok (text : Option (List Char))
  | err (msg : Option (List Char))

/-- `setGeminiApiKey` (lines 10-29): reject a key that is empty after
trimming (clearing the handle and removing the stored value), otherwise
construct a client; on construction success persist the key and install
the handle, on failure clear the handle but keep the stored value. -/
def setGeminiApiKey (env : GenAIEnv) (key : List Char) (s : SvcState) :
    SvcState × Except JsErr Unit :=
  if jsTrim key = [] then
    ({ ai := none, storage := none },
      .error (.thrown (strL "API key cannot be empty.")))
  else if env.cok key then
    ({ ai := some key, storage := some key }, .ok ())
  else
    ({ ai := none, storage := s.storage },
      .error (.thrown
        (strL "Invalid API Key or failed to initialize Gemini client: " ++ env.cmsg key)))

/-- `loadApiKeyFromStorage` (lines 31-48): if a truthy key is stored,
attempt construction; install the handle only on success, return the
stored key either way and never delete it; with no (truthy) stored key,
null out the handle and return `null`. -/
def loadApiKeyFromStorage (env : GenAIEnv) (s : SvcState) :
    SvcState × Option (List Char) :=
  match s.storage with
  | some k =>
    if k.isEmpty then ({ s with ai := none }, none)
    else if env.cok k then ({ s with ai := some k }, some k)
    else ({ s with ai := none }, some k)
  | none => ({ s with ai := none }, none)

/-- `isGeminiClientInitialized` (lines 50-52). -/
def isGeminiClientInitialized (s : SvcState) : Bool := s.ai.isSome

/-- `getStoredApiKey` (lines 54-56). -/
def getStoredApiKey (s : SvcState) : Option (List Char) := s.storage

/-- `clearGeminiApiKey` (lines 58-62). -/
def clearGeminiApiKey (_s : SvcState) : SvcState :=
  { ai := none, storage := none }

/-- The fixed error-message strings of the orchestrator. -/
def notInitializedMsg : List Char :=
  strL "Gemini API client is not initialized. Please set your API key."

/-- Message of the inner empty-response throw (line 121). -/
def emptyResponseMsg : List Char :=
  strL "Received an empty response from the AI."

/-- Message of the inner parse-failure throw (line 137): a fixed prefix,
the first 200 characters of the raw response, and an ellipsis marker. -/
def malformedMsg (responseText : List Char) : List Char :=
  strL "Failed to parse analysis data from AI. Raw response: " ++
    responseText.take 200 ++ strL "..."

/-- Message thrown by the auth-rejection branch (line 145). -/
def authRejectedMsg : List Char :=
  strL "Invalid Gemini API Key. Please check your key and set it again."

/-- Wrapper applied by the quota branch (line 149). -/
def quotaWrapMsg (m : List Char) : List Char :=
  strL "Gemini API request failed due to quota limits: " ++ m

/-- Wrapper applied by the final catch-all rethrow (line 151). -/
def transportWrapMsg (m : List Char) : List Char :=
  strL "Error analyzing chart with Gemini: " ++ m

/-- The auth needle checked first at line 142. -/
def needleNotValid : List Char := strL "api key not valid"

/-- The auth needle checked second at line 142. -/
def needleInvalid : List Char := strL "invalid api key"

/-- The quota needle checked (case-sensitively) at line 148. -/
def needleQuota : List Char := strL "quota"

/-- The catch block of `analyzeChartWithGemini` (lines 140-152).  The
condition at line 142 is, by JavaScript operator precedence,
`(error.message && lower.includes("api key not valid")) ||
lower.includes("invalid api key")`: when `error.message` is absent the
second disjunct dereferences `undefined` and raises a `TypeError`.  The
auth branch also nulls out the module-level client handle. -/
def classifyCatch (s : SvcState) (msg : Option (List Char)) : SvcState × JsErr :=
  match msg with
  | none => (s, .typeError)
  | some m =>
    if (!m.isEmpty && hasSub (lowerStr m) needleNotValid) ||
        hasSub (lowerStr m) needleInvalid then
      ({ s with ai := none }, .thrown authRejectedMsg)
    else if !m.isEmpty && hasSub m needleQuota then
      (s, .thrown (quotaWrapMsg m))
    else
      (s, .thrown (transportWrapMsg (if m.isEmpty then strL "Unknown error" else m)))

/-- Result of one `analyze` call: the final module state, the returned
record or raised error, and whether the `generateContent` collaborator was
invoked. -/
structure AnalyzeOutput where
  state : SvcState
  result : Except JsErr Json
  networkCalled : Bool

/-- The precondition block of `analyzeChartWithGemini` (lines 87-95): if
the handle is absent, attempt one implicit reload from storage; the Bool
is the guard `keyFromStorage && ai` that decides whether to proceed. -/
def analyzePre (env : GenAIEnv) (s : SvcState) : SvcState × Bool :=
  if s.ai.isSome then (s, true)
  else
    let ls := loadApiKeyFromStorage env s
    (ls.1,
      (match ls.2 with
       | some k => !k.isEmpty
       | none => false) && ls.1.ai.isSome)

/-- The `try` block of `analyzeChartWithGemini` (lines 97-152) starting at
the network call, with its catch block.  The two inner throws (empty
response at line 121, parse failure at line 137) are inside the `try`, so
they flow through the same catch block as transport errors. -/
def analyzeTry (outcome : RemoteOutcome) (s1 : SvcState) : AnalyzeOutput :=
  match outcome with
  | .err m =>
    let ce := classifyCatch s1 m
    ⟨ce.1, .error ce.2, true⟩
  | .ok otext =>
    let responseText := match otext with | some tx => tx | none => []
    if responseText.isEmpty then
      let ce := classifyCatch s1 (some emptyResponseMsg)
      ⟨ce.1, .error ce.2, true⟩
    else
      match jsonParse (decodeJsonStr responseText) with
      | some v => ⟨s1, .ok v, true⟩
      | none =>
        let ce := classifyCatch s1 (some (malformedMsg responseText))
        ⟨ce.1, .error ce.2, true⟩

/-- `analyzeChartWithGemini` (lines 83-153).  The request body (image
part, prompt part, model name, generation config) does not influence any
observable modelled here, so only the fact that a network call happens is
recorded via `networkCalled`. -/
def analyzeChartWithGemini (env : GenAIEnv) (outcome : RemoteOutcome)
    (_imageBase64Data _mimeType : List Char) (s : SvcState) : AnalyzeOutput :=
  let pre := analyzePre env s
  if pre.2 then analyzeTry outcome pre.1
  else ⟨pre.1, .error (.thrown notInitializedMsg), false⟩

/-! ### Helper lemmas about the orchestrator -/

theorem analyzeTry_networkCalled (o : RemoteOutcome) (s1 : SvcState) :
    (analyzeTry o s1).networkCalled = true := by
  cases o with
  | err m => rfl
  | ok t =>
    simp only [analyzeTry]
    split
    · rfl
    · split <;> rfl

theorem analyze_of_networkCalled (env : GenAIEnv) (o : RemoteOutcome)
    (img mime : List Char) (s : SvcState)
    (h : (analyzeChartWithGemini env o img mime s).networkCalled = true) :
    (analyzePre env s).2 = true ∧
      analyzeChartWithGemini env o img mime s = analyzeTry o (analyzePre env s).1 := by
  by_cases hp : (analyzePre env s).2 = true
  · exact ⟨hp, by simp [analyzeChartWithGemini, hp]⟩
  · exfalso
    have hp' : (analyzePre env s).2 = false := by
      cases hb : (analyzePre env s).2
      · rfl
      · exact absurd hb hp
    simp [analyzeChartWithGemini, hp'] at h

theorem classifyCatch_auth (s1 : SvcState) (m : List Char)
    (h : hasSub (lowerStr m) needleNotValid = true ∨
         hasSub (lowerStr m) needleInvalid = true) :
    classifyCatch s1 (some m) = ({ s1 with ai := none }, .thrown authRejectedMsg) := by
  have hm : m ≠ [] := by
    intro he; subst he
    rcases h with h | h <;> revert h <;> decide
  have hne : m.isEmpty = false := by
    cases m with
    | nil => exact absurd rfl hm
    | cons a l => rfl
  have hcond : ((!m.isEmpty && hasSub (lowerStr m) needleNotValid) ||
      hasSub (lowerStr m) needleInvalid) = true := by
    rcases h with h | h <;> simp [hne, h]
  simp [classifyCatch, hcond]

theorem classifyCatch_transport (s1 : SvcState) (m : List Char)
    (hne : m.isEmpty = false)
    (h1 : hasSub (lowerStr m) needleNotValid = false)
    (h2 : hasSub (lowerStr m) needleInvalid = false)
    (h3 : hasSub m needleQuota = false) :
    classifyCatch s1 (some m) = (s1, .thrown (transportWrapMsg m)) := by
  simp [classifyCatch, hne, h1, h2, h3]

/-! ### Claims C1, C4, C7, C8 -/

/-- C1: whenever the remote request is actually issued and fails with an
error whose message contains, case-insensitively, "api key not valid" or
"invalid api key", `analyze` raises the distinct auth-rejection error and
tears down the live client handle, so `isGeminiClientInitialized` reports
false immediately afterwards. -/
theorem c1_remote_auth_rejected (env : GenAIEnv) (img mime m : List Char)
    (s : SvcState)
    (hnet : (analyzeChartWithGemini env (.err (some m)) img mime s).networkCalled = true)
    (hneedle : hasSub (lowerStr m) needleNotValid = true ∨
               hasSub (lowerStr m) needleInvalid = true) :
    (analyzeChartWithGemini env (.err (some m)) img mime s).result =
      .error (.thrown authRejectedMsg) ∧
    isGeminiClientInitialized (analyzeChartWithGemini env (.err (some m)) img mime s).state = false := by
  obtain ⟨-, heq⟩ := analyze_of_networkCalled env _ img mime s hnet
  rw [heq]
  simp [analyzeTry, classifyCatch_auth _ _ hneedle, isGeminiClientInitialized]

/-- Witness for C1 at the spec's own scenario: message "API key not valid"
with a live handle. -/
theorem c1_remote_auth_rejected_witness :
    ((analyzeChartWithGemini ⟨fun _ => true, fun _ => []⟩
        (.err (some (strL "API key not valid"))) [] []
        ⟨some (strL "k"), some (strL "k")⟩).networkCalled = true ∧
      hasSub (lowerStr (strL "API key not valid")) needleNotValid = true) ∧
    ((analyzeChartWithGemini ⟨fun _ => true, fun _ => []⟩
        (.err (some (strL "API key not valid"))) [] []
        ⟨some (strL "k"), some (strL "k")⟩).result =
          .error (.thrown authRejectedMsg) ∧
      isGeminiClientInitialized (analyzeChartWithGemini ⟨fun _ => true, fun _ => []⟩
        (.err (some (strL "API key not valid"))) [] []
        ⟨some (strL "k"), some (strL "k")⟩).state = false) :=
  ⟨⟨by decide, by decide⟩,
    c1_remote_auth_rejected ⟨fun _ => true, fun _ => []⟩ [] [] _ _
      (by decide) (Or.inl (by decide))⟩

/-- C4: with no live handle and an implicit reload that does not produce
one, `analyze` fails with the not-initialized error and the remote
collaborator is never invoked. -/
theorem c4_not_authenticated (env : GenAIEnv) (outcome : RemoteOutcome)
    (img mime : List Char) (s : SvcState)
    (h1 : s.ai = none)
    (h2 : (loadApiKeyFromStorage env s).1.ai = none) :
    (analyzeChartWithGemini env outcome img mime s).result =
      .error (.thrown notInitializedMsg) ∧
    (analyzeChartWithGemini env outcome img mime s).networkCalled = false := by
  have hpre : (analyzePre env s).2 = false := by
    simp [analyzePre, h1, h2]
  simp [analyzeChartWithGemini, hpre]

/-- Witness for C4: fresh process, nothing persisted. -/
theorem c4_not_authenticated_witness :
    ((⟨none, none⟩ : SvcState).ai = none ∧
      (loadApiKeyFromStorage ⟨fun _ => true, fun _ => []⟩ ⟨none, none⟩).1.ai = none) ∧
    ((analyzeChartWithGemini ⟨fun _ => true, fun _ => []⟩ (.ok (some (strL "x"))) [] []
        ⟨none, none⟩).result = .error (.thrown notInitializedMsg) ∧
      (analyzeChartWithGemini ⟨fun _ => true, fun _ => []⟩ (.ok (some (strL "x"))) [] []
        ⟨none, none⟩).networkCalled = false) :=
  ⟨⟨rfl, rfl⟩, c4_not_authenticated ⟨fun _ => true, fun _ => []⟩ _ [] [] _ rfl rfl⟩

/-- C7: a secret that is non-empty after trimming and on which client
construction succeeds makes `setGeminiApiKey` return normally, with the
handle live and the secret persisted. -/
theorem c7_set_credential_success (env : GenAIEnv) (key : List Char) (s : SvcState)
    (hkey : jsTrim key ≠ [])
    (hcok : env.cok key = true) :
    (setGeminiApiKey env key s).2 = .ok () ∧
    isGeminiClientInitialized (setGeminiApiKey env key s).1 = true ∧
    getStoredApiKey (setGeminiApiKey env key s).1 = some key := by
  simp [setGeminiApiKey, hkey, hcok, isGeminiClientInitialized, getStoredApiKey]

/-- Witness for C7. -/
theorem c7_set_credential_success_witness :
    (jsTrim (strL "secret") ≠ [] ∧ (⟨fun _ => true, fun _ => []⟩ : GenAIEnv).cok (strL "secret") = true) ∧
    ((setGeminiApiKey ⟨fun _ => true, fun _ => []⟩ (strL "secret") ⟨none, none⟩).2 = .ok () ∧
      isGeminiClientInitialized (setGeminiApiKey ⟨fun _ => true, fun _ => []⟩ (strL "secret") ⟨none, none⟩).1 = true ∧
      getStoredApiKey (setGeminiApiKey ⟨fun _ => true, fun _ => []⟩ (strL "secret") ⟨none, none⟩).1 =
        some (strL "secret")) :=
  ⟨⟨by decide, rfl⟩,
    c7_set_credential_success ⟨fun _ => true, fun _ => []⟩ (strL "secret") ⟨none, none⟩ (by decide) rfl⟩

/-- C8: a secret that is empty after trimming makes `setGeminiApiKey` fail
with the invalid-input error, sets the handle absent, and removes the
persisted value. -/
theorem c8_set_credential_empty (env : GenAIEnv) (key : List Char) (s : SvcState)
    (hkey : jsTrim key = []) :
    (setGeminiApiKey env key s).2 = .error (.thrown (strL "API key cannot be empty.")) ∧
    isGeminiClientInitialized (setGeminiApiKey env key s).1 = false ∧
    getStoredApiKey (setGeminiApiKey env key s).1 = none := by
  simp [setGeminiApiKey, hkey, isGeminiClientInitialized, getStoredApiKey]

/-- Witness for C8 on a whitespace-only secret against a state that had a
live handle and a persisted value. -/
theorem c8_set_credential_empty_witness :
    jsTrim (strL "   ") = [] ∧
    ((setGeminiApiKey ⟨fun _ => true, fun _ => []⟩ (strL "   ")
        ⟨some (strL "k"), some (strL "k")⟩).2 =
          .error (.thrown (strL "API key cannot be empty.")) ∧
      isGeminiClientInitialized (setGeminiApiKey ⟨fun _ => true, fun _ => []⟩ (strL "   ")
        ⟨some (strL "k"), some (strL "k")⟩).1 = false ∧
      getStoredApiKey (setGeminiApiKey ⟨fun _ => true, fun _ => []⟩ (strL "   ")
        ⟨some (strL "k"), some (strL "k")⟩).1 = none) :=
  ⟨by decide,
    c8_set_credential_empty ⟨fun _ => true, fun _ => []⟩ (strL "   ")
      ⟨some (strL "k"), some (strL "k")⟩ (by decide)⟩

/-! ### Claims C9, C10 -/

/-- C9: `loadApiKeyFromStorage` returns the persisted secret whenever one
exists (a secret being a non-empty string, per the data-model invariant),
regardless of whether construction succeeds; the handle is installed only
on construction success, the persisted value is never deleted, and the
call returns `none` when nothing is persisted. -/
theorem c9_load_from_storage (env : GenAIEnv) (s : SvcState)
    (hwf : s.storage ≠ some []) :
    (loadApiKeyFromStorage env s).2 = s.storage ∧
    (loadApiKeyFromStorage env s).1.storage = s.storage ∧
    (loadApiKeyFromStorage env s).1.ai =
      (match s.storage with
       | some k => if env.cok k then some k else none
       | none => none) := by
  cases hst : s.storage with
  | none => simp [loadApiKeyFromStorage, hst]
  | some k =>
    have hk : k.isEmpty = false := by
      cases k with
      | nil => exact absurd hst (hst ▸ fun h => hwf (hst ▸ rfl))
      | cons a l => rfl
    by_cases hc : env.cok k = true
    · simp [loadApiKeyFromStorage, hst, hk, hc]
    · have hc' : env.cok k = false := by
        cases hb : env.cok k
        · rfl
        · exact absurd hb hc
      simp [loadApiKeyFromStorage, hst, hk, hc']

/-- Witness for C9: a persisted secret on which construction fails is
still returned, the handle stays absent, and the secret is kept. -/
theorem c9_load_from_storage_witness :
    ((⟨none, some (strL "k")⟩ : SvcState).storage ≠ some []) ∧
    ((loadApiKeyFromStorage ⟨fun _ => false, fun _ => []⟩ ⟨none, some (strL "k")⟩).2 =
        some (strL "k") ∧
      (loadApiKeyFromStorage ⟨fun _ => false, fun _ => []⟩ ⟨none, some (strL "k")⟩).1.storage =
        some (strL "k") ∧
      (loadApiKeyFromStorage ⟨fun _ => false, fun _ => []⟩ ⟨none, some (strL "k")⟩).1.ai = none) :=
  ⟨by decide,
    by
      have h := c9_load_from_storage ⟨fun _ => false, fun _ => []⟩
        ⟨none, some (strL "k")⟩ (by decide)
      simpa using h⟩

/-- The C10 invariant: a live client handle is always backed by a
persisted secret. -/
def readyImpliesPersisted (s : SvcState) : Prop :=
  s.ai.isSome = true → s.storage.isSome = true

/-- C10: every core operation — `setGeminiApiKey` (any outcome),
`loadApiKeyFromStorage`, `clearGeminiApiKey`, and `analyzeChartWithGemini`
including its key-invalidation side effect — preserves the invariant that
a live handle implies a persisted secret. -/
theorem c10_ready_implies_persisted (env : GenAIEnv) (key img mime : List Char)
    (outcome : RemoteOutcome) (s : SvcState)
    (hinv : readyImpliesPersisted s) :
    readyImpliesPersisted (setGeminiApiKey env key s).1 ∧
    readyImpliesPersisted (loadApiKeyFromStorage env s).1 ∧
    readyImpliesPersisted (clearGeminiApiKey s) ∧
    readyImpliesPersisted (analyzeChartWithGemini env outcome img mime s).state := by
  have hset : readyImpliesPersisted (setGeminiApiKey env key s).1 := by
    unfold setGeminiApiKey readyImpliesPersisted
    split
    · simp
    · split <;> simp
  have hload : ∀ t : SvcState, readyImpliesPersisted t →
      readyImpliesPersisted (loadApiKeyFromStorage env t).1 := by
    intro t _
    unfold loadApiKeyFromStorage readyImpliesPersisted
    cases hst : t.storage with
    | none => simp
    | some k =>
      by_cases hk : k.isEmpty
      · simp [hk, hst]
      · by_cases hc : env.cok k = true
        · simp [hk, hc, hst]
        · have hc' : env.cok k = false := by
            cases hb : env.cok k
            · rfl
            · exact absurd hb hc
          simp [hk, hc', hst]
  have hclear : readyImpliesPersisted (clearGeminiApiKey s) := by
    unfold clearGeminiApiKey readyImpliesPersisted
    simp
  refine ⟨hset, hload s hinv, hclear, ?_⟩
  -- the analyze call: its state is either the precondition state (the
  -- original state or the reload result) or that state with the handle
  -- cleared by the auth branch of the catch block
  have hpre : readyImpliesPersisted (analyzePre env s).1 := by
    unfold analyzePre
    split
    · simpa using hinv
    · exact hload s hinv
  have hcatch : ∀ t : SvcState, readyImpliesPersisted t → ∀ m,
      readyImpliesPersisted (classifyCatch t m).1 := by
    intro t ht m
    cases m with
    | none => simpa [classifyCatch] using ht
    | some mm =>
      simp only [classifyCatch]
      split
      · intro h; simp at h
      · split
        · simpa using ht
        · simpa using ht
  have htry : ∀ t : SvcState, readyImpliesPersisted t →
      readyImpliesPersisted (analyzeTry outcome t).state := by
    intro t ht
    cases outcome with
    | err m => exact hcatch t ht m
    | ok otext =>
      cases otext with
      | none => simpa [analyzeTry] using hcatch t ht (some emptyResponseMsg)
      | some tx =>
        by_cases he : tx.isEmpty = true
        · simpa [analyzeTry, he] using hcatch t ht (some emptyResponseMsg)
        · have he' : tx.isEmpty = false := by
            cases hb : tx.isEmpty
            · rfl
            · exact absurd hb he
          cases hp : jsonParse (decodeJsonStr tx) with
          | some v => simpa [analyzeTry, he', hp] using ht
          | none => simpa [analyzeTry, he', hp] using hcatch t ht (some (malformedMsg tx))
  by_cases hp2 : (analyzePre env s).2 = true
  · simpa [analyzeChartWithGemini, hp2] using htry _ hpre
  · have hp2' : (analyzePre env s).2 = false := by
      cases hb : (analyzePre env s).2
      · rfl
      · exact absurd hb hp2
    simpa [analyzeChartWithGemini, hp2'] using hpre

/-- Witness for C10 starting from a ready, persisted state. -/
theorem c10_ready_implies_persisted_witness :
    readyImpliesPersisted ⟨some (strL "k"), some (strL "k")⟩ ∧
    (readyImpliesPersisted (setGeminiApiKey ⟨fun _ => true, fun _ => []⟩ (strL "new")
        ⟨some (strL "k"), some (strL "k")⟩).1 ∧
      readyImpliesPersisted (loadApiKeyFromStorage ⟨fun _ => true, fun _ => []⟩
        ⟨some (strL "k"), some (strL "k")⟩).1 ∧
      readyImpliesPersisted (clearGeminiApiKey ⟨some (strL "k"), some (strL "k")⟩) ∧
      readyImpliesPersisted (analyzeChartWithGemini ⟨fun _ => true, fun _ => []⟩
        (.err (some (strL "invalid api key"))) [] []
        ⟨some (strL "k"), some (strL "k")⟩).state) :=
  ⟨fun _ => rfl,
    c10_ready_implies_persisted ⟨fun _ => true, fun _ => []⟩ (strL "new") [] []
      (.err (some (strL "invalid api key"))) ⟨some (strL "k"), some (strL "k")⟩
      (fun _ => rfl)⟩

/-! ### Claim C3 (corrected) -/

/-- C3 counterexample: the empty-response error is thrown inside the
`try`, so the catch block at lines 140-152 re-wraps it; the surfaced
message is the generic transport wrapper around the empty-response text,
not the empty-response text itself. -/
theorem c3_counterexample :
    (analyzeChartWithGemini ⟨fun _ => true, fun _ => []⟩ (.ok (some [])) [] []
        ⟨some (strL "k"), some (strL "k")⟩).result =
      .error (.thrown (transportWrapMsg emptyResponseMsg)) ∧
    transportWrapMsg emptyResponseMsg ≠ emptyResponseMsg := by
  exact ⟨rfl, by decide⟩

/-- C3 amended: on an empty or absent response body (with the request
actually issued), `analyze` fails with the empty-response error re-wrapped
by the outer classifier into the generic transport message. -/
theorem c3_empty_response_wrapped (env : GenAIEnv) (img mime : List Char)
    (otext : Option (List Char)) (s : SvcState)
    (hnet : (analyzeChartWithGemini env (.ok otext) img mime s).networkCalled = true)
    (hempty : otext = none ∨ otext = some []) :
    (analyzeChartWithGemini env (.ok otext) img mime s).result =
      .error (.thrown (transportWrapMsg emptyResponseMsg)) := by
  obtain ⟨-, heq⟩ := analyze_of_networkCalled env _ img mime s hnet
  rw [heq]
  have hclass : classifyCatch (analyzePre env s).1 (some emptyResponseMsg) =
      ((analyzePre env s).1, .thrown (transportWrapMsg emptyResponseMsg)) :=
    classifyCatch_transport _ _ (by decide) (by decide) (by decide) (by decide)
  rcases hempty with h | h <;> subst h <;> simp [analyzeTry, hclass]

/-- Witness for the amended C3. -/
theorem c3_empty_response_wrapped_witness :
    ((analyzeChartWithGemini ⟨fun _ => true, fun _ => []⟩ (.ok none) [] []
        ⟨some (strL "k"), some (strL "k")⟩).networkCalled = true) ∧
    ((analyzeChartWithGemini ⟨fun _ => true, fun _ => []⟩ (.ok none) [] []
        ⟨some (strL "k"), some (strL "k")⟩).result =
      .error (.thrown (transportWrapMsg emptyResponseMsg))) :=
  ⟨by decide,
    c3_empty_response_wrapped ⟨fun _ => true, fun _ => []⟩ [] [] none
      ⟨some (strL "k"), some (strL "k")⟩ (by decide) (Or.inl rfl)⟩

/-! ### Claim C6 (code bug) -/

/-- C6 failing input: a remote failure whose error carries no `message`.
By JavaScript operator precedence the condition at line 142 is
`(error.message && lower.includes("api key not valid")) ||
lower.includes("invalid api key")`, so with `error.message` undefined the
second disjunct dereferences `undefined` and the call crashes with a
`TypeError` instead of surfacing the transport error with the
`'Unknown error'` placeholder of line 151. -/
theorem c6_no_message_type_error :
    (analyzeChartWithGemini ⟨fun _ => true, fun _ => []⟩ (.err none) [] []
        ⟨some (strL "k"), some (strL "k")⟩).result = .error .typeError ∧
    (analyzeChartWithGemini ⟨fun _ => true, fun _ => []⟩ (.err none) [] []
        ⟨some (strL "k"), some (strL "k")⟩).result ≠
      .error (.thrown (transportWrapMsg (strL "Unknown error"))) := by
  refine ⟨rfl, ?_⟩
  intro h
  rw [show (analyzeChartWithGemini ⟨fun _ => true, fun _ => []⟩ (.err none) [] []
      ⟨some (strL "k"), some (strL "k")⟩).result = .error .typeError from rfl] at h
  exact JsErr.noConfusion (Except.error.inj h)

/-! ### Claim C2 (corrected) -/

/-- C2 counterexample: a non-JSON response text that itself contains the
auth needle.  The parse-failure error (with its excerpt) is re-classified
by the catch block as an auth rejection: the surfaced error is the fixed
auth message with no excerpt and no ellipsis marker, and the live handle
is torn down. -/
theorem c2_counterexample :
    (analyzeChartWithGemini ⟨fun _ => true, fun _ => []⟩
        (.ok (some (strL "invalid api key"))) [] []
        ⟨some (strL "k"), some (strL "k")⟩).result =
      .error (.thrown authRejectedMsg) ∧
    (analyzeChartWithGemini ⟨fun _ => true, fun _ => []⟩
        (.ok (some (strL "invalid api key"))) [] []
        ⟨some (strL "k"), some (strL "k")⟩).state.ai = none ∧
    hasSub authRejectedMsg (strL "...") = false := by
  exact ⟨rfl, rfl, by decide⟩

/-- C2 amended: for a non-empty response text that fails to parse and
whose parse-failure message triggers neither the auth needles (checked
case-insensitively) nor the quota needle (checked case-sensitively),
`analyze` fails with the parse-failure message — a fixed prefix, at most
the first 200 characters of the raw text, and an ellipsis marker, never
the full payload — re-wrapped in the generic transport prefix by the
outer catch. -/
theorem c2_malformed_truncated (env : GenAIEnv) (img mime text : List Char)
    (s : SvcState)
    (hnet : (analyzeChartWithGemini env (.ok (some text)) img mime s).networkCalled = true)
    (hne : text.isEmpty = false)
    (hparse : jsonParse (decodeJsonStr text) = none)
    (h1 : hasSub (lowerStr (malformedMsg text)) needleNotValid = false)
    (h2 : hasSub (lowerStr (malformedMsg text)) needleInvalid = false)
    (h3 : hasSub (malformedMsg text) needleQuota = false) :
    (analyzeChartWithGemini env (.ok (some text)) img mime s).result =
      .error (.thrown (transportWrapMsg (malformedMsg text))) ∧
    malformedMsg text =
      strL "Failed to parse analysis data from AI. Raw response: " ++
        text.take 200 ++ strL "..." ∧
    (text.take 200).length ≤ 200 := by
  obtain ⟨-, heq⟩ := analyze_of_networkCalled env _ img mime s hnet
  have hmm : (malformedMsg text).isEmpty = false := by
    cases hb : malformedMsg text with
    | nil =>
      exfalso
      have : (strL "Failed to parse analysis data from AI. Raw response: " ++
          (text.take 200 ++ strL "...")) = [] := by
        simpa [malformedMsg, List.append_assoc] using hb
      simpa [strL] using congrArg List.length this
    | cons a l => rfl
  have hclass : classifyCatch (analyzePre env s).1 (some (malformedMsg text)) =
      ((analyzePre env s).1, .thrown (transportWrapMsg (malformedMsg text))) :=
    classifyCatch_transport _ _ hmm h1 h2 h3
  refine ⟨?_, rfl, List.length_take_le 200 text⟩
  rw [heq]
  simp [analyzeTry, hne, hparse, hclass]

/-- Witness for the amended C2 at the spec's own scenario, response text
"not json". -/
theorem c2_malformed_truncated_witness :
    ((analyzeChartWithGemini ⟨fun _ => true, fun _ => []⟩ (.ok (some (strL "not json")))
        [] [] ⟨some (strL "k"), some (strL "k")⟩).networkCalled = true ∧
      (strL "not json").isEmpty = false ∧
      jsonParse (decodeJsonStr (strL "not json")) = none) ∧
    ((analyzeChartWithGemini ⟨fun _ => true, fun _ => []⟩ (.ok (some (strL "not json")))
        [] [] ⟨some (strL "k"), some (strL "k")⟩).result =
      .error (.thrown (transportWrapMsg (malformedMsg (strL "not json")))) ∧
      malformedMsg (strL "not json") =
        strL "Failed to parse analysis data from AI. Raw response: " ++
          (strL "not json").take 200 ++ strL "..." ∧
      ((strL "not json").take 200).length ≤ 200) :=
  ⟨⟨by decide, by decide, rfl⟩,
    c2_malformed_truncated ⟨fun _ => true, fun _ => []⟩ [] [] (strL "not json")
      ⟨some (strL "k"), some (strL "k")⟩ (by decide) (by decide) rfl
      (by decide) (by decide) (by decide)⟩

/-! ### Claim C5: fence-wrapping does not change the decoded record

List-level helper lemmas, then facts about where a JSON text can start,
then the main theorem. -/

theorem dropWhile_append_all {p : Char → Bool} {l₁ : List Char}
    (h : ∀ a ∈ l₁, p a = true) (l₂ : List Char) :
    (l₁ ++ l₂).dropWhile p = l₂.dropWhile p := by
  induction l₁ with
  | nil => rfl
  | cons a t ih =>
    have ha : p a = true := h a (List.mem_cons_self a t)
    simp only [List.cons_append, List.dropWhile_cons, ha, if_pos]
    exact ih fun b hb => h b (List.mem_cons_of_mem a hb)

theorem dropWhile_concat_of_neg {p : Char → Bool} {c : Char} (h : p c = false)
    (l : List Char) : (l ++ [c]).dropWhile p = l.dropWhile p ++ [c] := by
  induction l with
  | nil => simp [List.dropWhile_cons, h]
  | cons a t ih =>
    by_cases ha : p a = true
    · simp only [List.cons_append, List.dropWhile_cons, ha, if_pos]
      exact ih
    · have ha' : p a = false := by
        cases hb : p a
        · rfl
        · exact absurd hb ha
      simp [List.dropWhile_cons, ha']

theorem rdropWhile_cons_of_neg {p : Char → Bool} {c : Char} (h : p c = false)
    (l : List Char) : (c :: l).rdropWhile p = c :: l.rdropWhile p := by
  show ((c :: l).reverse.dropWhile p).reverse = c :: (l.reverse.dropWhile p).reverse
  rw [List.reverse_cons, dropWhile_concat_of_neg h, List.reverse_append]
  simp

/-- Splitting a string into a whitespace run followed by a non-whitespace
character determines its `jsTrim`. -/
theorem jsTrim_split {tw : List Char} {c : Char} (r : List Char)
    (htw : ∀ a ∈ tw, jsWhitespace a = true) (hc : jsWhitespace c = false) :
    jsTrim (tw ++ c :: r) = c :: r.rdropWhile jsWhitespace := by
  unfold jsTrim
  rw [dropWhile_append_all htw, List.dropWhile_cons]
  simp only [hc]
  exact rdropWhile_cons_of_neg hc r

theorem isPrefixOf_append_self (l x : List Char) : l.isPrefixOf (l ++ x) = true := by
  induction l with
  | nil => simp [List.isPrefixOf]
  | cons a t ih => simp [List.isPrefixOf, ih]

/-- JSON whitespace is JavaScript whitespace. -/
theorem jsonWs_sub_jsWs {c : Char} (h : jsonWsChar c = true) : jsWhitespace c = true := by
  simp only [jsonWsChar, Bool.or_eq_true, decide_eq_true_eq] at h
  rcases h with ((h | h) | h) | h <;> subst h <;> decide

/-- A successful `parseF` on a value task begins at a JSON start
character after the leading JSON whitespace. -/
theorem parseF_val_start {fuel : Nat} {t : List Char} {v : Json} {rest : List Char}
    (h : parseF (fuel + 1) (PTask.val t) = some (v, rest)) :
    ∃ c r, t.dropWhile jsonWsChar = c :: r ∧ jsonStartChar c = true := by
  simp only [parseF] at h
  split at h
  · exact absurd h (by simp)
  · rename_i c r hd
    refine ⟨c, r, hd, ?_⟩
    by_cases h1 : c = '"'
    · simp [jsonStartChar, h1]
    rw [if_neg h1] at h
    by_cases h2 : c = lbrace
    · simp [jsonStartChar, h2]
    rw [if_neg h2] at h
    by_cases h3 : c = '['
    · simp [jsonStartChar, h3]
    rw [if_neg h3] at h
    by_cases h4 : c = 't'
    · simp [jsonStartChar, h4]
    rw [if_neg h4] at h
    by_cases h5 : c = 'f'
    · simp [jsonStartChar, h5]
    rw [if_neg h5] at h
    by_cases h6 : c = 'n'
    · simp [jsonStartChar, h6]
    rw [if_neg h6] at h
    by_cases h7 : c = '-' ∨ isDigitCh c = true
    · rcases h7 with h7 | h7
      · simp [jsonStartChar, h7]
      · simp [jsonStartChar, h7]
    rw [if_neg (by simpa using h7)] at h
    exact absurd h (by simp)

/-- A string accepted by `jsonParse` begins, after leading JSON
whitespace, at a JSON start character. -/
theorem jsonParse_start {t : List Char} (h : (jsonParse t).isSome = true) :
    ∃ c r, t.dropWhile jsonWsChar = c :: r ∧ jsonStartChar c = true := by
  unfold jsonParse at h
  cases hp : parseF (t.length + 1) (PTask.val t) with
  | none => rw [hp] at h; simp at h
  | some pr =>
    obtain ⟨v, rest⟩ := pr
    exact @parseF_val_start t.length t v rest hp

/-- Facts about JSON start characters: none is JavaScript whitespace and
none is a backtick. -/
theorem start_char_facts {c : Char} (h : jsonStartChar c = true) :
    jsWhitespace c = false ∧ c ≠ btick := by
  simp only [jsonStartChar, Bool.or_eq_true, decide_eq_true_eq] at h
  rcases h with ((((((h | h) | h) | h) | h) | h) | h) | h
  · subst h; exact ⟨by decide, by decide⟩
  · subst h; exact ⟨by decide, by decide⟩
  · subst h; exact ⟨by decide, by decide⟩
  · subst h; exact ⟨by decide, by decide⟩
  · simp only [isDigitCh, Bool.or_eq_true, decide_eq_true_eq] at h
    rcases h with ((((((((h | h) | h) | h) | h) | h) | h) | h) | h) | h <;> subst h <;>
      exact ⟨by decide, by decide⟩
  · subst h; exact ⟨by decide, by decide⟩
  · subst h; exact ⟨by decide, by decide⟩
  · subst h; exact ⟨by decide, by decide⟩

/-- The opening fence cannot match at a JSON start character. -/
theorem not_fence_of_start {c : Char} (h : jsonStartChar c = true) (x : List Char) :
    bt3.isPrefixOf (c :: x) = false := by
  have hc : c ≠ btick := (start_char_facts h).2
  have hbe : (btick == c) = false := by
    simp [beq_eq_false_iff_ne]
    exact fun he => hc he.symm
  simp [bt3, List.isPrefixOf, hbe]

/-- The claim's wrapping of a text in a fenced code block with language
tag `w`: the string "BTBTBT" ++ w ++ "\n" ++ t ++ "\n" ++ "BTBTBT" (writing BT
for a backtick). -/
def fenceWrap (w t : List Char) : List Char :=
  bt3 ++ w ++ '\n' :: (t ++ '\n' :: bt3)

/-- C5: wrapping any JSON-parseable text in a fenced code block with an
optional word-character language tag leaves the decoded string — and
hence the decoded record — unchanged. -/
theorem c5_fence_transparent (w t : List Char)
    (hw : ∀ a ∈ w, isWordChar a = true)
    (hjson : (jsonParse t).isSome = true) :
    decodeJsonStr (fenceWrap w t) = decodeJsonStr t ∧
    decodeResponse (fenceWrap w t) = decodeResponse t := by
  obtain ⟨c, r, hd, hstart⟩ := jsonParse_start hjson
  obtain ⟨hcws, hcb⟩ := start_char_facts hstart
  have htw : ∀ a ∈ t.takeWhile jsonWsChar, jsWhitespace a = true :=
    fun a ha => jsonWs_sub_jsWs (List.mem_takeWhile_imp ha)
  have ht : t = t.takeWhile jsonWsChar ++ c :: r := by
    conv_lhs => rw [← List.takeWhile_append_dropWhile jsonWsChar t]
    rw [hd]
  -- bare side: the trimmed text starts at a non-backtick, so the fence
  -- regex does not match and the decoded string is the trimmed text
  have hbareTrim : jsTrim t = c :: r.rdropWhile jsWhitespace := by
    conv_lhs => rw [ht]
    exact jsTrim_split r htw hcws
  have hbareFence : fenceGroup2 (jsTrim t) = none := by
    rw [hbareTrim]
    unfold fenceGroup2
    rw [if_neg]
    intro hcond
    have hpf := not_fence_of_start hstart (r.rdropWhile jsWhitespace)
    simp [hpf] at hcond
  have hbare : decodeJsonStr t = c :: r.rdropWhile jsWhitespace := by
    rw [hbareTrim] at hbareFence
    simp only [decodeJsonStr, hbareTrim, hbareFence]
  -- wrapped side
  have hS_cons : fenceWrap w t =
      btick :: btick :: btick :: (w ++ '\n' :: (t ++ '\n' :: bt3)) := by
    simp [fenceWrap, bt3]
  have hS_concat : fenceWrap w t =
      (bt3 ++ w ++ '\n' :: (t ++ ['\n', btick, btick])) ++ [btick] := by
    simp [fenceWrap, bt3, List.append_assoc]
  have hS_suffix : fenceWrap w t = (bt3 ++ w ++ '\n' :: (t ++ ['\n'])) ++ bt3 := by
    simp [fenceWrap, bt3, List.append_assoc]
  have hbtw : jsWhitespace btick = false := by decide
  have htrimS : jsTrim (fenceWrap w t) = fenceWrap w t := by
    unfold jsTrim
    have h1 : (fenceWrap w t).dropWhile jsWhitespace = fenceWrap w t := by
      conv_lhs => rw [hS_cons]
      rw [List.dropWhile_cons]
      simp only [hbtw, Bool.false_eq_true, if_false]
      exact hS_cons.symm
    rw [h1]
    conv_lhs => rw [hS_concat]
    rw [List.rdropWhile_concat_neg _ _ _ (by simp [hbtw])]
    exact hS_concat.symm
  have hprefix : bt3.isPrefixOf (fenceWrap w t) = true := by
    have hassoc : fenceWrap w t = bt3 ++ (w ++ '\n' :: (t ++ '\n' :: bt3)) := by
      simp [fenceWrap, List.append_assoc]
    rw [hassoc]
    exact isPrefixOf_append_self _ _
  have hsuffix : bt3.isSuffixOf (fenceWrap w t) = true := by
    show bt3.reverse.isPrefixOf (fenceWrap w t).reverse = true
    conv_lhs => rw [hS_suffix]
    rw [List.reverse_append]
    have hbtr : (bt3 : List Char).reverse = bt3 := by decide
    rw [hbtr]
    show bt3.isPrefixOf (bt3 ++ _) = true
    exact isPrefixOf_append_self _ _
  have hlen : 6 ≤ (fenceWrap w t).length := by
    rw [hS_cons]
    simp [List.length_cons, List.length_append, bt3]
    omega
  have hdrop3 : (fenceWrap w t).drop 3 = w ++ '\n' :: (t ++ '\n' :: bt3) := by
    rw [hS_cons]
    rfl
  have hnlword : isWordChar '\n' = false := by decide
  have ha1 : ((fenceWrap w t).drop 3).dropWhile isWordChar =
      '\n' :: (t ++ '\n' :: bt3) := by
    rw [hdrop3, dropWhile_append_all hw, List.dropWhile_cons]
    simp only [hnlword, Bool.false_eq_true, if_false]
  have hnlws : jsWhitespace '\n' = true := by decide
  have ha2 : (((fenceWrap w t).drop 3).dropWhile isWordChar).dropWhile jsWhitespace =
      c :: (r ++ '\n' :: bt3) := by
    rw [ha1, List.dropWhile_cons]
    simp only [hnlws, if_true]
    conv_lhs => rw [ht]
    rw [List.append_assoc, List.cons_append, dropWhile_append_all htw,
      List.dropWhile_cons]
    simp only [hcws, Bool.false_eq_true, if_false]
  have hlen2 : ((c :: (r ++ '\n' :: bt3)) : List Char).length - 3 = r.length + 2 := by
    simp [List.length_cons, List.length_append, bt3]
  have htake : ((c :: (r ++ '\n' :: bt3)) : List Char).take (r.length + 2) =
      c :: (r ++ ['\n']) := by
    show List.take ((r.length + 1) + 1) _ = _
    rw [List.take_succ_cons]
    have := @List.take_append Char r ('\n' :: bt3) 1
    rw [this]
    rfl
  have hlenD : decide (6 ≤ (fenceWrap w t).length) = true := decide_eq_true hlen
  have hgroup : fenceGroup2 (fenceWrap w t) = some (c :: r.rdropWhile jsWhitespace) := by
    simp only [fenceGroup2, hprefix, hsuffix, hlenD, Bool.and_self, Bool.true_and,
      if_true]
    rw [ha2, hlen2, htake]
    rw [rdropWhile_cons_of_neg hcws, List.rdropWhile_concat_pos _ _ _ (by simp [hnlws])]
  have hwrapped : decodeJsonStr (fenceWrap w t) = c :: r.rdropWhile jsWhitespace := by
    simp only [decodeJsonStr, htrimS, hgroup, List.isEmpty_cons, Bool.false_eq_true,
      if_false]
    unfold jsTrim
    rw [List.dropWhile_cons]
    simp only [hcws, Bool.false_eq_true, if_false]
    rw [rdropWhile_cons_of_neg hcws, List.rdropWhile_idempotent]
  refine ⟨hwrapped.trans hbare.symm, ?_⟩
  unfold decodeResponse
  exact congrArg jsonParse (hwrapped.trans hbare.symm)

/-- Witness for C5 at the spec's instance: the response
"BTBTBTjson\n\x7b\"trends\":\"up\"\x7d\nBTBTBT" (BT a backtick) decodes identically
to the bare object text. -/
theorem c5_fence_transparent_witness :
    (fenceWrap (strL "json") (strL "\x7b\"trends\":\"up\"\x7d") =
        strL "```json\n\x7b\"trends\":\"up\"\x7d\n```" ∧
      (∀ a ∈ strL "json", isWordChar a = true) ∧
      (jsonParse (strL "\x7b\"trends\":\"up\"\x7d")).isSome = true) ∧
    (decodeJsonStr (fenceWrap (strL "json") (strL "\x7b\"trends\":\"up\"\x7d")) =
        decodeJsonStr (strL "\x7b\"trends\":\"up\"\x7d") ∧
      decodeResponse (fenceWrap (strL "json") (strL "\x7b\"trends\":\"up\"\x7d")) =
        decodeResponse (strL "\x7b\"trends\":\"up\"\x7d")) :=
  ⟨⟨by decide, by decide, by decide⟩,
    c5_fence_transparent (strL "json") (strL "\x7b\"trends\":\"up\"\x7d")
      (by decide) (by decide)⟩
